import Mathlib

/-!
Verification development for the MovieDetails catalog component
(src/components/MovieDetails.tsx) and the Banner component.

The component's core logic is embedded shallowly:
  - optional TypeScript fields become `Option` values; JavaScript string
    truthiness (`undefined` and `""` are falsy) is the `truthy` predicate;
  - the side effects `window.open(url, _blank)` and
    `Telegram.WebApp.openTelegramLink(url)` become explicit `OpenAction`
    values, and a handler returns the list of actions it performs;
  - the availability of the in-host messaging client
    (`window.Telegram?.WebApp`) is an explicit boolean parameter `tg`,
    queried afresh on each handler invocation;
  - `Array.prototype.sort` with comparator `(a, b) => a.number - b.number`
    is a stable ascending sort (guaranteed stable since ES2019), embedded
    as insertion sort by episode number;
  - a `Record<number, T>` built from numeric keys enumerates its keys in
    ascending numeric order (JavaScript integer-key ordering), embedded as
    an association list with ascending distinct keys.

The `Movie` and `Episode` record types come from the repository's
`../types` module, which is not part of the sources at hand; their fields
are modelled from the spec (section 3) restricted to the fields the
component reads.  Presentation-only attributes (duration, rating, badge
labels, screenshots, ...) are omitted: the spec marks them out of scope
and no claim mentions them.
-/

/-- Modelled from the spec: one installment of a series, from the missing
`../types` module.  `season` and the action references are optional;
`number` is the sole in-season sort key; `downloadLink` is listed by the
spec's data-model scenario although the component never reads it on an
episode. -/
structure Episode where
  id : String := ""
  title : String := ""
  season : Option Nat := none
  number : Int := 0
  isComingSoon : Bool := false
  telegramCode : String := ""
  downloadCode : Option String := none
  downloadLink : Option String := none
  deriving Repr, DecidableEq

/-- Modelled from the spec: the catalog entry under view, from the missing
`../types` module, restricted to the fields the component's core logic
reads (classification and action references). -/
structure Movie where
  id : String := ""
  title : String := ""
  category : String := ""
  telegramCode : String := ""
  downloadCode : Option String := none
  episodes : Option (List Episode) := none
  deriving Repr, DecidableEq

/-- JavaScript truthiness of an optional string: `undefined` and the empty
string are falsy, every other string is truthy.  This is the presence
test the component uses (`if (downloadLink)`, `ep.downloadCode && ...`). -/
def truthy : Option String → Bool
  | none => false
  | some s => !(s == "")

/-- One externally observable link-opening effect: either the in-host
messaging client's internal navigation (`Telegram.WebApp.openTelegramLink`)
or generic external navigation (`window.open(url, _blank)`). -/
inductive OpenAction where
  | openTelegramLink (url : String)
  | windowOpen (url : String)
  deriving Repr, DecidableEq

/-- The URL an action opens. -/
def OpenAction.url : OpenAction → String
  | .openTelegramLink u => u
  | .windowOpen u => u

/-- Whether the action goes through the in-host messaging client. -/
def OpenAction.viaTelegram : OpenAction → Bool
  | .openTelegramLink _ => true
  | .windowOpen _ => false

/-- The deep-link URL `https://t.me/<botUsername>?start=<code>` built by the
handlers (template literal at lines 71 and 83). -/
def tgUrl (botUsername code : String) : String :=
  "https://t.me/" ++ botUsername ++ "?start=" ++ code

/-- `handleWatch` (MovieDetails.tsx lines 70-77): build the deep link from
the given code and open it, through the messaging client when it is
available (`tg = true`) and as generic external navigation otherwise.
Note there is no presence check on `code`. -/
def handleWatch (botUsername : String) (tg : Bool) (code : String) :
    List OpenAction :=
  if tg then [.openTelegramLink (tgUrl botUsername code)]
  else [.windowOpen (tgUrl botUsername code)]

/-- `handleDownload` (MovieDetails.tsx lines 79-92): three-tier resolution.
A truthy `downloadLink` is opened verbatim by `window.open`; otherwise a
truthy `downloadCode` yields the deep link (same delivery branch as
`handleWatch`); otherwise a truthy `fallbackCode` is delegated to
`handleWatch`; otherwise nothing happens.  Parameters appear in the
source's order `(downloadCode?, downloadLink?, fallbackCode?)`. -/
def handleDownload (botUsername : String) (tg : Bool)
    (downloadCode downloadLink fallbackCode : Option String) :
    List OpenAction :=
  if truthy downloadLink then
    [.windowOpen (downloadLink.getD "")]
  else if truthy downloadCode then
    (if tg then [.openTelegramLink (tgUrl botUsername (downloadCode.getD ""))]
     else [.windowOpen (tgUrl botUsername (downloadCode.getD ""))])
  else if truthy fallbackCode then
    handleWatch botUsername tg (fallbackCode.getD "")
  else []

/-- The episode download button's click handler (line 335) invokes
`handleDownload(ep.downloadCode)`: only the episode's download code is
passed; the second and third arguments are left `undefined`. -/
def episodeDownloadClick (botUsername : String) (tg : Bool) (ep : Episode) :
    List OpenAction :=
  handleDownload botUsername tg ep.downloadCode none none

/-- The episode watch button's click handler (line 327) invokes
`handleWatch(ep.telegramCode)` unconditionally. -/
def episodeWatchClick (botUsername : String) (tg : Bool) (ep : Episode) :
    List OpenAction :=
  handleWatch botUsername tg ep.telegramCode

/-- Rendering gate for an episode's watch control (lines 324-332): the
action row is rendered exactly when the episode is not locked
(`!isLocked`, with `isLocked = ep.isComingSoon`, line 274), and the watch
button is unconditional inside it. -/
def episodeWatchShown (ep : Episode) : Bool :=
  !ep.isComingSoon

/-- Rendering gate for an episode's download control (lines 324, 333-340):
inside the unlocked action row, the download button is additionally
guarded by `ep.downloadCode && ...`. -/
def episodeDownloadShown (ep : Episode) : Bool :=
  !ep.isComingSoon && truthy ep.downloadCode

/-- `isSeries` (line 94): category is one of the two sentinel strings, or
the episode list is present and non-empty. -/
def isSeries (m : Movie) : Bool :=
  m.category == "Series" || m.category == "Korean Drama" ||
    (match m.episodes with
     | none => false
     | some eps => decide (0 < eps.length))

/-- The grouping key `ep.season || 1` (line 100): a missing or falsy
season number (in JavaScript, `undefined` or `0`) defaults to `1`. -/
def seasonKey (ep : Episode) : Nat :=
  match ep.season with
  | none => 1
  | some s => if s = 0 then 1 else s

/-- Stable insertion of an episode into a list sorted ascending by episode
number: the newcomer settles in front of the first element its number is
less than or equal to. -/
def insertEp (a : Episode) : List Episode → List Episode
  | [] => [a]
  | b :: l => if a.number ≤ b.number then a :: b :: l else b :: insertEp a l

/-- Stable ascending sort by episode number, the embedding of
`groups[+key].sort((a, b) => a.number - b.number)` (line 105);
`Array.prototype.sort` is stable, and insertion sort computes exactly the
stable ascending reordering. -/
def sortByNumber : List Episode → List Episode
  | [] => []
  | a :: l => insertEp a (sortByNumber l)

/-- Insertion into an ascending list of naturals. -/
def insertNat (a : Nat) : List Nat → List Nat
  | [] => [a]
  | b :: l => if a ≤ b then a :: b :: l else b :: insertNat a l

/-- Ascending insertion sort on naturals, embedding
`.sort((a, b) => a - b)` on season numbers. -/
def sortNat : List Nat → List Nat
  | [] => []
  | a :: l => insertNat a (sortNat l)

/-- The distinct season keys of an episode list, in ascending order: the
key set of the `groups` record (lines 98-103).  JavaScript enumerates the
integer keys of a record in ascending order. -/
def seasonKeysAsc (eps : List Episode) : List Nat :=
  sortNat (eps.map seasonKey).dedup

/-- `episodesBySeason` (lines 96-108) as an association list from season
number to the season's episodes sorted by episode number.  A missing
episode list yields the empty record; each key's group collects, in input
order, the episodes whose key it is (the `forEach` pushes), then sorts
them stably ascending by number. -/
def episodesBySeason (movieEpisodes : Option (List Episode)) :
    List (Nat × List Episode) :=
  match movieEpisodes with
  | none => []
  | some eps =>
      (seasonKeysAsc eps).map fun s =>
        (s, sortByNumber (eps.filter fun ep => seasonKey ep == s))

/-- Key lookup in the `groups` record: `episodesBySeason[s]`, yielding
`undefined` (`none`) when the key is absent. -/
def lookupSeason (groups : List (Nat × List Episode)) (s : Nat) :
    Option (List Episode) :=
  (groups.find? fun p => p.1 == s).map fun p => p.2

/-- `seasonNumbers` (line 110):
`Object.keys(episodesBySeason).map(Number).sort((a, b) => a - b)`. -/
def seasonNumbers (movieEpisodes : Option (List Episode)) : List Nat :=
  sortNat ((episodesBySeason movieEpisodes).map fun p => p.1)

/-- `currentSeasonEpisodes` (line 111):
`episodesBySeason[selectedSeason] || []` — an absent key degrades to the
empty list. -/
def currentSeasonEpisodes (movieEpisodes : Option (List Episode))
    (selectedSeason : Nat) : List Episode :=
  (lookupSeason (episodesBySeason movieEpisodes) selectedSeason).getD []

/-- The season selector (line 253) is rendered only when
`seasonNumbers.length > 1`. -/
def seasonSelectorShown (movieEpisodes : Option (List Episode)) : Bool :=
  decide (1 < (seasonNumbers movieEpisodes).length)

/-- One user click on a season button (line 258): the selector offers a
button for season `e` only when the selector itself is rendered and `e`
is one of the season numbers; such a click sets the selected season,
anything else leaves the state unchanged. -/
def selectSeasonStep (movieEpisodes : Option (List Episode))
    (cur : Nat) (e : Nat) : Nat :=
  if seasonSelectorShown movieEpisodes && (seasonNumbers movieEpisodes).contains e
  then e else cur

/-- The selected season after a sequence of season-button clicks, starting
from the `useState(1)` default (line 66). -/
def selectedSeasonAfter (movieEpisodes : Option (List Episode))
    (events : List Nat) : Nat :=
  events.foldl (selectSeasonStep movieEpisodes) 1

theorem insertEp_perm (a : Episode) (l : List Episode) :
    List.Perm (insertEp a l) (a :: l) := by
  induction l with
  | nil => simp [insertEp]
  | cons b t ih =>
      by_cases h : a.number ≤ b.number
      · simp [insertEp, h]
      · simp only [insertEp, if_neg h]
        exact List.Perm.trans (ih.cons b) (List.Perm.swap a b t)

theorem sortByNumber_perm (l : List Episode) :
    List.Perm (sortByNumber l) l := by
  induction l with
  | nil => simp [sortByNumber]
  | cons a t ih =>
      exact List.Perm.trans (insertEp_perm a (sortByNumber t)) (ih.cons a)

theorem insertNat_perm (a : Nat) (l : List Nat) :
    List.Perm (insertNat a l) (a :: l) := by
  induction l with
  | nil => simp [insertNat]
  | cons b t ih =>
      by_cases h : a ≤ b
      · simp [insertNat, h]
      · simp only [insertNat, if_neg h]
        exact List.Perm.trans (ih.cons b) (List.Perm.swap a b t)

theorem sortNat_perm (l : List Nat) : List.Perm (sortNat l) l := by
  induction l with
  | nil => simp [sortNat]
  | cons a t ih =>
      exact List.Perm.trans (insertNat_perm a (sortNat t)) (ih.cons a)

theorem mem_sortNat {x : Nat} {l : List Nat} : x ∈ sortNat l ↔ x ∈ l :=
  (sortNat_perm l).mem_iff

theorem sortNat_nodup {l : List Nat} (h : l.Nodup) : (sortNat l).Nodup :=
  (sortNat_perm l).symm.nodup h

theorem seasonKeysAsc_nodup (eps : List Episode) : (seasonKeysAsc eps).Nodup :=
  sortNat_nodup (List.nodup_dedup _)

theorem mem_seasonKeysAsc {s : Nat} {eps : List Episode} :
    s ∈ seasonKeysAsc eps ↔ s ∈ eps.map seasonKey := by
  unfold seasonKeysAsc
  rw [mem_sortNat, List.mem_dedup]

theorem pairwise_insertEp (a : Episode) {l : List Episode}
    (h : l.Pairwise fun x y => x.number ≤ y.number) :
    (insertEp a l).Pairwise fun x y => x.number ≤ y.number := by
  induction l with
  | nil => simp [insertEp]
  | cons b t ih =>
      rcases List.pairwise_cons.mp h with ⟨hb, ht⟩
      by_cases hab : a.number ≤ b.number
      · simp only [insertEp, if_pos hab]
        refine List.pairwise_cons.mpr ⟨?_, h⟩
        intro x hx
        rcases List.mem_cons.mp hx with rfl | hxt
        · exact hab
        · exact le_trans hab (hb x hxt)
      · simp only [insertEp, if_neg hab]
        refine List.pairwise_cons.mpr ⟨?_, ih ht⟩
        intro x hx
        have hx' : x = a ∨ x ∈ t := by
          simpa using (insertEp_perm a t).mem_iff.mp hx
        rcases hx' with rfl | hxt
        · exact le_of_lt (not_le.mp hab)
        · exact hb x hxt

theorem sortByNumber_pairwise (l : List Episode) :
    (sortByNumber l).Pairwise fun x y => x.number ≤ y.number := by
  induction l with
  | nil => simp [sortByNumber]
  | cons a t ih => exact pairwise_insertEp a ih

theorem filter_insertEp (a : Episode) (l : List Episode) (n : Int) :
    (insertEp a l).filter (fun e => e.number == n) =
      if a.number = n then a :: l.filter (fun e => e.number == n)
      else l.filter (fun e => e.number == n) := by
  induction l with
  | nil => by_cases h : a.number = n <;> simp [insertEp, h]
  | cons b t ih =>
      by_cases hab : a.number ≤ b.number
      · simp only [insertEp]
        rw [if_pos hab]
        by_cases h : a.number = n <;> simp [List.filter_cons, h]
      · simp only [insertEp]
        rw [if_neg hab]
        have hba : b.number < a.number := not_le.mp hab
        by_cases h : a.number = n
        · have hbn : ¬ b.number = n := by omega
          simp [List.filter_cons, ih, h, hbn]
        · simp [List.filter_cons, ih, h]

theorem sortByNumber_filter (l : List Episode) (n : Int) :
    (sortByNumber l).filter (fun e => e.number == n) =
      l.filter (fun e => e.number == n) := by
  induction l with
  | nil => rfl
  | cons a t ih =>
      by_cases h : a.number = n <;>
        simp [sortByNumber, filter_insertEp, ih, h, List.filter_cons]

theorem flatMap_if_cons_perm (a : Episode) (g : Nat → List Episode) :
    ∀ ks : List Nat, ks.Nodup → ∀ s₀ : Nat, s₀ ∈ ks →
      List.Perm (ks.flatMap fun s => if s₀ == s then a :: g s else g s)
        (a :: ks.flatMap g) := by
  intro ks
  induction ks with
  | nil => intro _ s₀ h; exact absurd h (List.not_mem_nil s₀)
  | cons k t ih =>
      intro hnd s₀ hmem
      rcases List.nodup_cons.mp hnd with ⟨hkt, hndt⟩
      rcases List.mem_cons.mp hmem with rfl | hst
      · have hfun : (t.flatMap fun s => if s₀ == s then a :: g s else g s)
            = t.flatMap g := by
          apply List.flatMap_congr
          intro s hs
          have hne : ¬ s₀ = s := fun he => hkt (he ▸ hs)
          simp [hne]
        rw [List.flatMap_cons, List.flatMap_cons, hfun]
        simp only [beq_self_eq_true, if_true, List.cons_append]
        exact List.Perm.refl _
      · have hne : ¬ s₀ = k := fun he => hkt (he ▸ hst)
        rw [List.flatMap_cons, List.flatMap_cons]
        have hif : (if s₀ == k then a :: g k else g k) = g k := by simp [hne]
        rw [hif]
        exact List.Perm.trans ((ih hndt s₀ hst).append_left (g k))
          List.perm_middle

theorem flatMap_filter_key_perm :
    ∀ (eps : List Episode) (ks : List Nat), ks.Nodup →
      (∀ ep ∈ eps, seasonKey ep ∈ ks) →
      List.Perm (ks.flatMap fun s => eps.filter fun ep => seasonKey ep == s)
        eps := by
  intro eps
  induction eps with
  | nil => intro ks _ _; simp
  | cons a rest ih =>
      intro ks hnd hmem
      have hfun : (ks.flatMap fun s => (a :: rest).filter fun ep => seasonKey ep == s)
          = ks.flatMap fun s =>
              if seasonKey a == s then a :: (rest.filter fun ep => seasonKey ep == s)
              else rest.filter fun ep => seasonKey ep == s := by
        apply List.flatMap_congr
        intro s _
        rw [List.filter_cons]
      rw [hfun]
      refine List.Perm.trans
        (flatMap_if_cons_perm a _ ks hnd (seasonKey a) (hmem a (by simp))) ?_
      exact (ih ks hnd fun ep h => hmem ep (by simp [h])).cons a

theorem episodesBySeason_flatMap_perm (eps : List Episode) :
    List.Perm ((episodesBySeason (some eps)).flatMap fun p => p.2) eps := by
  have h1 : ((episodesBySeason (some eps)).flatMap fun p => p.2)
      = (seasonKeysAsc eps).flatMap
          fun s => sortByNumber (eps.filter fun ep => seasonKey ep == s) := by
    simp [episodesBySeason, List.flatMap_map]
  rw [h1]
  refine List.Perm.trans
    (List.Perm.flatMap_left _ fun s _ => sortByNumber_perm _) ?_
  exact flatMap_filter_key_perm eps _ (seasonKeysAsc_nodup eps)
    fun ep h => mem_seasonKeysAsc.mpr (List.mem_map_of_mem _ h)

theorem mem_episodesBySeason {eps : List Episode} {s : Nat} {g : List Episode} :
    (s, g) ∈ episodesBySeason (some eps) ↔
      s ∈ seasonKeysAsc eps ∧
        g = sortByNumber (eps.filter fun ep => seasonKey ep == s) := by
  constructor
  · intro h
    rcases List.mem_map.mp h with ⟨k, hk, he⟩
    rcases Prod.mk.injEq .. ▸ he with he'
    obtain ⟨rfl, rfl⟩ : k = s ∧ sortByNumber (eps.filter fun ep => seasonKey ep == k) = g := by
      simpa using he'
    exact ⟨hk, rfl⟩
  · rintro ⟨hs, rfl⟩
    exact List.mem_map.mpr ⟨s, hs, rfl⟩

theorem lookupSeason_map_keys (f : Nat → List Episode) :
    ∀ (ks : List Nat) (s : Nat),
      lookupSeason (ks.map fun k => (k, f k)) s =
        if s ∈ ks then some (f s) else none := by
  intro ks
  induction ks with
  | nil => intro s; simp [lookupSeason]
  | cons k t ih =>
      intro s
      by_cases h : k = s
      · subst h
        simp [lookupSeason, List.find?_cons_of_pos]
      · have hne : ((k, f k).1 == s) = false := by simp [h]
        unfold lookupSeason
        rw [List.map_cons, List.find?_cons_of_neg _ (by simp [hne])]
        have := ih s
        unfold lookupSeason at this
        rw [this]
        simp [List.mem_cons, h, Ne.symm h]

theorem currentSeasonEpisodes_some (eps : List Episode) (s : Nat) :
    currentSeasonEpisodes (some eps) s =
      if s ∈ seasonKeysAsc eps
      then sortByNumber (eps.filter fun ep => seasonKey ep == s) else [] := by
  unfold currentSeasonEpisodes episodesBySeason
  rw [lookupSeason_map_keys]
  by_cases h : s ∈ seasonKeysAsc eps <;> simp [h]

theorem seasonNumbers_keys (eps : List Episode) :
    (episodesBySeason (some eps)).map (fun p => p.1) = seasonKeysAsc eps := by
  unfold episodesBySeason
  rw [List.map_map]
  have hcomp : ((fun p : Nat × List Episode => p.1) ∘
      fun s => (s, sortByNumber (eps.filter fun ep => seasonKey ep == s))) = id := rfl
  rw [hcomp, List.map_id]

theorem mem_seasonNumbers_some {eps : List Episode} {s : Nat} :
    s ∈ seasonNumbers (some eps) ↔ s ∈ seasonKeysAsc eps := by
  unfold seasonNumbers
  rw [mem_sortNat, seasonNumbers_keys]

theorem length_le_one_of_nodup_const {l : List Nat} {c : Nat}
    (hn : l.Nodup) (h : ∀ x ∈ l, x = c) : l.length ≤ 1 := by
  cases l with
  | nil => simp
  | cons a t =>
      cases t with
      | nil => simp
      | cons b t2 =>
          exfalso
          rcases List.nodup_cons.mp hn with ⟨ha, _⟩
          have h1 := h a (by simp)
          have h2 := h b (by simp)
          exact ha (by rw [h1, h2]; simp)

theorem seasonNumbers_length_le_one {eps : List Episode}
    (h : ∀ a ∈ eps, ∀ b ∈ eps, seasonKey a = seasonKey b) :
    (seasonNumbers (some eps)).length ≤ 1 := by
  have hlen : (seasonNumbers (some eps)).length = (seasonKeysAsc eps).length := by
    unfold seasonNumbers
    rw [(sortNat_perm _).length_eq, seasonNumbers_keys]
  rw [hlen]
  cases eps with
  | nil =>
      have hnil : seasonKeysAsc [] = [] := rfl
      simp [hnil]
  | cons e t =>
      apply length_le_one_of_nodup_const (seasonKeysAsc_nodup _)
      intro x hx
      rcases List.mem_map.mp (mem_seasonKeysAsc.mp hx) with ⟨ep, hep, rfl⟩
      exact h ep hep e (by simp)

theorem foldl_selectSeasonStep_const {o : Option (List Episode)}
    (h : seasonSelectorShown o = false) :
    ∀ (evs : List Nat) (cur : Nat), evs.foldl (selectSeasonStep o) cur = cur := by
  intro evs
  induction evs with
  | nil => intro cur; rfl
  | cons e t ih =>
      intro cur
      rw [List.foldl_cons]
      have hstep : selectSeasonStep o cur e = cur := by
        unfold selectSeasonStep
        rw [h]
        simp
      rw [hstep]
      exact ih cur

/-- C1: in `handleDownload`, the three tiers are consulted in strict order.
A present (truthy) direct link always wins and is opened verbatim, never
combined with a code; with no direct link, a present download code yields
the deep link exactly as the watch policy builds it; with neither, a
present fallback code yields the deep link built from the fallback code. -/
theorem c1_download_tier_order :
    ∀ (bot : String) (tg : Bool) (dc dl fc : Option String),
      (truthy dl = true →
        handleDownload bot tg dc dl fc = [OpenAction.windowOpen (dl.getD "")]) ∧
      (truthy dl = false → truthy dc = true →
        handleDownload bot tg dc dl fc = handleWatch bot tg (dc.getD "")) ∧
      (truthy dl = false → truthy dc = false → truthy fc = true →
        handleDownload bot tg dc dl fc = handleWatch bot tg (fc.getD "")) := by
  intro bot tg dc dl fc
  refine ⟨?_, ?_, ?_⟩
  · intro h
    simp [handleDownload, h]
  · intro h1 h2
    simp [handleDownload, handleWatch, h1, h2]
  · intro h1 h2 h3
    simp [handleDownload, h1, h2, h3]

/-- Witness for C1 at concrete inputs: with all three fields present the
direct link wins; dropping the direct link promotes the download code;
dropping both promotes the fallback code. -/
theorem c1_download_tier_order_witness :
    handleDownload "bot" false (some "d") (some "L") (some "f")
        = [OpenAction.windowOpen "L"] ∧
    handleDownload "bot" false (some "d") none (some "f")
        = handleWatch "bot" false "d" ∧
    handleDownload "bot" false none none (some "f")
        = handleWatch "bot" false "f" := by
  refine ⟨?_, ?_, ?_⟩
  · exact (c1_download_tier_order "bot" false (some "d") (some "L") (some "f")).1
      (by decide)
  · exact (c1_download_tier_order "bot" false (some "d") none (some "f")).2.1
      (by decide) (by decide)
  · exact (c1_download_tier_order "bot" false none none (some "f")).2.2
      (by decide) (by decide) (by decide)

/-- C2: the organizer maps an absent or empty episode list to the empty
record; for every input, the groups' multiset union is the input, every
group is non-decreasing by episode number, and equal-numbered episodes
keep their relative input order (the group filtered to one episode number
equals the input filtered to that season key and number, in input order). -/
theorem c2_organizer_correct :
    episodesBySeason none = [] ∧
    episodesBySeason (some []) = [] ∧
    ∀ eps : List Episode,
      List.Perm ((episodesBySeason (some eps)).flatMap fun p => p.2) eps ∧
      ∀ s g, (s, g) ∈ episodesBySeason (some eps) →
        g.Pairwise (fun a b => a.number ≤ b.number) ∧
        ∀ n : Int, g.filter (fun e => e.number == n) =
          (eps.filter fun ep => seasonKey ep == s).filter
            (fun e => e.number == n) := by
  refine ⟨rfl, rfl, fun eps => ⟨episodesBySeason_flatMap_perm eps, ?_⟩⟩
  intro s g hmem
  rcases mem_episodesBySeason.mp hmem with ⟨_, rfl⟩
  exact ⟨sortByNumber_pairwise _, fun n => sortByNumber_filter _ n⟩

/-- Witness for C2 at a concrete two-episode input with equal episode
numbers: the union is a permutation of the input, the season-1 group is
sorted, and the stable order keeps episode x before episode y. -/
theorem c2_organizer_witness :
    List.Perm
      ((episodesBySeason (some [({ id := "x", number := 2 } : Episode),
        { id := "y", number := 2 }])).flatMap fun p => p.2)
      [{ id := "x", number := 2 }, { id := "y", number := 2 }] ∧
    List.Pairwise (fun a b : Episode => a.number ≤ b.number)
      [{ id := "x", number := 2 }, { id := "y", number := 2 }] ∧
    ([({ id := "x", number := 2 } : Episode),
        { id := "y", number := 2 }].filter (fun e => e.number == 2)) =
      (([({ id := "x", number := 2 } : Episode),
        { id := "y", number := 2 }].filter
          fun ep => seasonKey ep == 1).filter fun e => e.number == 2) := by
  have h := c2_organizer_correct.2.2
    [{ id := "x", number := 2 }, { id := "y", number := 2 }]
  have h2 := h.2 1 [{ id := "x", number := 2 }, { id := "y", number := 2 }]
    (by decide)
  exact ⟨h.1, h2.1, h2.2 2⟩

/-- C3: a title is classified multi-episode exactly when its category is
one of the two sentinel strings or its episode list is present and
non-empty, and no attribute besides category and episodes influences the
classification. -/
theorem c3_series_rule :
    (∀ m : Movie, isSeries m = true ↔
      (m.category = "Series" ∨ m.category = "Korean Drama" ∨
        ∃ eps, m.episodes = some eps ∧ 0 < eps.length)) ∧
    (∀ m m' : Movie, m.category = m'.category → m.episodes = m'.episodes →
      isSeries m = isSeries m') := by
  constructor
  · intro m
    cases hm : m.episodes <;> simp [isSeries, hm, or_assoc]
  · intro m m' h1 h2
    simp only [isSeries, h1, h2]

/-- Witness for C3: all four truth-table combinations of (category is a
sentinel, episode list non-empty), plus attribute-irrelevance at two
movies differing only in title. -/
theorem c3_series_rule_witness :
    isSeries { category := "Series" } = true ∧
    isSeries { category := "Movie", episodes := some [{ number := 1 }] } = true ∧
    isSeries { category := "Series", episodes := some [{ number := 1 }] } = true ∧
    isSeries { category := "Movie" } = false ∧
    isSeries { title := "A", category := "Movie" }
      = isSeries { title := "B", category := "Movie" } := by
  refine ⟨?_, ?_, ?_, ?_, ?_⟩
  · exact (c3_series_rule.1 { category := "Series" }).mpr (Or.inl rfl)
  · exact (c3_series_rule.1 _).mpr
      (Or.inr (Or.inr ⟨[{ number := 1 }], rfl, by decide⟩))
  · exact (c3_series_rule.1 _).mpr (Or.inl rfl)
  · by_contra hfalse
    have := (c3_series_rule.1 { category := "Movie" }).mp
      (by revert hfalse; decide)
    rcases this with h | h | ⟨eps, he, _⟩ <;> simp_all
  · exact c3_series_rule.2 _ _ rfl rfl

/-- C4 counterexample: `handleWatch` performs no presence check on its
code.  With an absent (falsy, here empty) primary code it still builds
and opens the deep link `https://t.me/bot?start=`, so an absent code does
not yield "no action". -/
theorem c4_absent_code_counterexample :
    handleWatch "bot" false "" = [OpenAction.windowOpen "https://t.me/bot?start="] ∧
    handleWatch "bot" false "" ≠ [] := by
  exact ⟨rfl, by decide⟩

/-- C4 (amended): `handleWatch` always produces exactly one destination —
the deep link combining the fixed bot identifier with the code as the
start parameter — delivered through the messaging client exactly when it
is available; it consults no download-specific fields (replacing an
episode's download code and download link leaves the watch click
unchanged).  There is no absence check: this holds for every code,
including the empty one. -/
theorem c4_watch_resolution_amended :
    ∀ (bot : String) (tg : Bool) (code : String),
      (∃ a : OpenAction, handleWatch bot tg code = [a] ∧
        a.url = tgUrl bot code ∧ a.viaTelegram = tg) ∧
      ∀ (ep : Episode) (dc dlnk : Option String),
        episodeWatchClick bot tg { ep with downloadCode := dc, downloadLink := dlnk }
          = episodeWatchClick bot tg ep := by
  intro bot tg code
  refine ⟨?_, fun ep dc dlnk => rfl⟩
  cases tg
  · exact ⟨.windowOpen (tgUrl bot code), rfl, rfl, rfl⟩
  · exact ⟨.openTelegramLink (tgUrl bot code), rfl, rfl, rfl⟩

/-- C5 counterexample: the episode download control passes only
`ep.downloadCode` to the resolver, so with both `downloadLink` and
`downloadCode` set on the episode record the resolved destination is the
deep link built from "abc", not the external link. -/
theorem c5_episode_direct_link_counterexample :
    episodeDownloadClick "bot" false
        { downloadCode := some "abc", downloadLink := some "https://x/file.mp4" }
      = [OpenAction.windowOpen "https://t.me/bot?start=abc"] ∧
    episodeDownloadClick "bot" false
        { downloadCode := some "abc", downloadLink := some "https://x/file.mp4" }
      ≠ [OpenAction.windowOpen "https://x/file.mp4"] := by
  exact ⟨rfl, by decide⟩

/-- C5 (amended): the episode download control forwards only the episode's
download code; the `downloadLink` field of the episode record is ignored
(changing it never changes the click's outcome), and whenever the
download code is present the resolved destination is the deep link built
from it, exactly as the watch policy builds it. -/
theorem c5_episode_download_amended :
    ∀ (bot : String) (tg : Bool) (ep : Episode),
      (∀ lnk : Option String,
        episodeDownloadClick bot tg { ep with downloadLink := lnk }
          = episodeDownloadClick bot tg ep) ∧
      (truthy ep.downloadCode = true →
        episodeDownloadClick bot tg ep
          = handleWatch bot tg (ep.downloadCode.getD "")) := by
  intro bot tg ep
  constructor
  · intro lnk
    rfl
  · intro h
    have hnone : truthy none = false := rfl
    simp [episodeDownloadClick, handleDownload, handleWatch, hnone, h]

/-- Witness for C5 (amended) at the scenario's record: with
`downloadCode = "abc"` the click resolves to the deep link for "abc", and
dropping the record's `downloadLink` changes nothing. -/
theorem c5_episode_download_amended_witness :
    episodeDownloadClick "bot" false
        { downloadCode := some "abc", downloadLink := some "https://x/file.mp4" }
      = handleWatch "bot" false "abc" ∧
    episodeDownloadClick "bot" false
        { downloadCode := some "abc", downloadLink := some "https://x/file.mp4" }
      = episodeDownloadClick "bot" false { downloadCode := some "abc" } := by
  constructor
  · exact (c5_episode_download_amended "bot" false
      { downloadCode := some "abc", downloadLink := some "https://x/file.mp4" }).2
      (by decide)
  · exact (c5_episode_download_amended "bot" false
      { downloadCode := some "abc" }).1 (some "https://x/file.mp4")

/-- C6: an episode whose season field is absent or falsy is placed in the
season-1 group, and in the spec's scenario the two episodes land together
in a single season-1 group ordered by episode number as [1, 3]. -/
theorem c6_default_season :
    (∀ (eps : List Episode) (ep : Episode), ep ∈ eps →
      ep.season = none ∨ ep.season = some 0 →
      ep ∈ currentSeasonEpisodes (some eps) 1) ∧
    episodesBySeason (some [{ number := 3 }, { season := some 1, number := 1 }])
      = [(1, [{ season := some 1, number := 1 }, { number := 3 }])] ∧
    (currentSeasonEpisodes
        (some [{ number := 3 }, { season := some 1, number := 1 }]) 1).map
      (fun e => e.number) = [1, 3] := by
  refine ⟨?_, rfl, rfl⟩
  intro eps ep hmem hfalsy
  have hkey : seasonKey ep = 1 := by
    rcases hfalsy with h | h <;> simp [seasonKey, h]
  have hone : (1 : Nat) ∈ seasonKeysAsc eps :=
    mem_seasonKeysAsc.mpr (List.mem_map.mpr ⟨ep, hmem, hkey⟩)
  rw [currentSeasonEpisodes_some, if_pos hone]
  exact (sortByNumber_perm _).mem_iff.mpr
    (List.mem_filter.mpr ⟨hmem, by simp [hkey]⟩)

/-- Witness for C6: a concrete episode with no season field is found in
the displayed season-1 list. -/
theorem c6_default_season_witness :
    ({ number := 3 } : Episode) ∈
      currentSeasonEpisodes (some [{ number := 3 }]) 1 :=
  c6_default_season.1 [{ number := 3 }] { number := 3 } (by decide) (Or.inl rfl)

/-- C7 counterexample: an episode that is not coming soon but has no
download code has its download control suppressed even though its
`downloadLink` is populated — so the coming-soon flag is not the sole
gate, contrary to the claim's second half. -/
theorem c7_lock_counterexample :
    ({ isComingSoon := false, downloadCode := none,
        downloadLink := some "https://x/file.mp4" } : Episode).isComingSoon
      = false ∧
    episodeDownloadShown
      { isComingSoon := false, downloadCode := none,
        downloadLink := some "https://x/file.mp4" } = false := by
  exact ⟨rfl, rfl⟩

/-- C7 (amended): a true coming-soon flag suppresses both controls
regardless of the action-reference fields; when it is false the watch
control is always rendered, while the download control is rendered
exactly when the episode's download code is present (truthy). -/
theorem c7_coming_soon_lock_amended :
    ∀ ep : Episode,
      (ep.isComingSoon = true →
        episodeWatchShown ep = false ∧ episodeDownloadShown ep = false) ∧
      (ep.isComingSoon = false →
        episodeWatchShown ep = true ∧
        episodeDownloadShown ep = truthy ep.downloadCode) := by
  intro ep
  constructor <;> intro h <;>
    simp [episodeWatchShown, episodeDownloadShown, h]

/-- Witness for C7 (amended): a coming-soon episode with every action
reference populated shows no controls; an unlocked episode with a
download code shows the download control. -/
theorem c7_coming_soon_lock_amended_witness :
    episodeWatchShown
      { isComingSoon := true, telegramCode := "c", downloadCode := some "d",
        downloadLink := some "L" } = false ∧
    episodeDownloadShown
      { isComingSoon := true, telegramCode := "c", downloadCode := some "d",
        downloadLink := some "L" } = false ∧
    episodeDownloadShown
      { isComingSoon := false, downloadCode := some "d" } = true := by
  have h1 := (c7_coming_soon_lock_amended
    { isComingSoon := true, telegramCode := "c", downloadCode := some "d",
      downloadLink := some "L" }).1 (by decide)
  have h2 := (c7_coming_soon_lock_amended
    { isComingSoon := false, downloadCode := some "d" }).2 (by decide)
  exact ⟨h1.1, h1.2, h2.2.trans (by decide)⟩

/-- C8: selecting a season number that is not in the season index yields
the empty displayed episode list; the lookup is total and degrades to
empty rather than failing. -/
theorem c8_out_of_range_selection :
    ∀ (movieEpisodes : Option (List Episode)) (s : Nat),
      s ∉ seasonNumbers movieEpisodes →
      currentSeasonEpisodes movieEpisodes s = [] := by
  intro o s h
  cases o with
  | none => rfl
  | some eps =>
      rw [currentSeasonEpisodes_some, if_neg]
      intro hmem
      exact h (mem_seasonNumbers_some.mpr hmem)

/-- Witness for C8 at the spec's scenario: with season index [1],
selecting season 2 displays the empty list. -/
theorem c8_out_of_range_selection_witness :
    seasonNumbers (some [({ season := some 1 } : Episode)]) = [1] ∧
    currentSeasonEpisodes (some [({ season := some 1 } : Episode)]) 2 = [] :=
  ⟨rfl, c8_out_of_range_selection (some [{ season := some 1 }]) 2 (by decide)⟩

/-- C9: each resolution call performs at most one open action (exactly one
for watch); a deep-link destination goes through the messaging client
exactly when the availability flag queried at that call is set, and a
direct-external-link destination is opened by generic external navigation
for either value of the flag. -/
theorem c9_delivery_paths :
    ∀ (bot : String) (tg : Bool) (code : String) (dc dl fc : Option String),
      (handleWatch bot tg code).length = 1 ∧
      (handleDownload bot tg dc dl fc).length ≤ 1 ∧
      (∀ a ∈ handleWatch bot tg code, a.viaTelegram = tg) ∧
      (truthy dl = true → ∀ tg' : Bool,
        handleDownload bot tg' dc dl fc = [OpenAction.windowOpen (dl.getD "")]) ∧
      (truthy dl = false → truthy dc = true →
        ∀ a ∈ handleDownload bot tg dc dl fc,
          a.viaTelegram = tg ∧ a.url = tgUrl bot (dc.getD "")) := by
  intro bot tg code dc dl fc
  refine ⟨?_, ?_, ?_, ?_, ?_⟩
  · cases tg <;> rfl
  · by_cases h1 : truthy dl = true
    · simp [handleDownload, h1]
    · by_cases h2 : truthy dc = true
      · cases tg <;> simp [handleDownload, h1, h2]
      · by_cases h3 : truthy fc = true <;>
          cases tg <;> simp [handleDownload, handleWatch, h1, h2, h3]
  · intro a ha
    cases tg <;> simp [handleWatch] at ha <;>
      simp [ha, OpenAction.viaTelegram]
  · intro h tg'
    simp [handleDownload, h]
  · intro h1 h2 a ha
    cases tg <;> simp [handleDownload, h1, h2] at ha <;>
      simp [ha, OpenAction.viaTelegram, OpenAction.url]

/-- Witness for C9: with the client available a deep link goes through it;
with a direct link present the external path is taken for both values of
the availability flag. -/
theorem c9_delivery_paths_witness :
    (handleWatch "b" true "c").length = 1 ∧
    (∀ a ∈ handleWatch "b" true "c", a.viaTelegram = true) ∧
    handleDownload "b" true (some "d") (some "L") none
      = [OpenAction.windowOpen "L"] ∧
    handleDownload "b" false (some "d") (some "L") none
      = [OpenAction.windowOpen "L"] ∧
    (∀ a ∈ handleDownload "b" true (some "d") none none,
      a.viaTelegram = true ∧ a.url = tgUrl "b" "d") := by
  have h1 := c9_delivery_paths "b" true "c" (some "d") (some "L") none
  have h2 := c9_delivery_paths "b" true "c" (some "d") none none
  exact ⟨h1.1, h1.2.2.1, h1.2.2.2.1 (by decide) true, h1.2.2.2.1 (by decide) false,
    h2.2.2.2.2 (by decide) (by decide)⟩

/-- C10: when every episode falls into a single season the season selector
is not rendered and the selected season stays at its default value 1
under any sequence of user clicks; conversely the selector is rendered
only when two episodes with distinct season keys exist. -/
theorem c10_season_selector :
    ∀ (eps : List Episode) (events : List Nat),
      ((∀ a ∈ eps, ∀ b ∈ eps, seasonKey a = seasonKey b) →
        seasonSelectorShown (some eps) = false ∧
        selectedSeasonAfter (some eps) events = 1) ∧
      (seasonSelectorShown (some eps) = true →
        ∃ a ∈ eps, ∃ b ∈ eps, seasonKey a ≠ seasonKey b) := by
  intro eps events
  have hmain : (∀ a ∈ eps, ∀ b ∈ eps, seasonKey a = seasonKey b) →
      seasonSelectorShown (some eps) = false ∧
      selectedSeasonAfter (some eps) events = 1 := by
    intro h
    have hlen := seasonNumbers_length_le_one h
    have hshown : seasonSelectorShown (some eps) = false := by
      simp only [seasonSelectorShown, decide_eq_false_iff_not]
      omega
    exact ⟨hshown, foldl_selectSeasonStep_const hshown events 1⟩
  refine ⟨hmain, ?_⟩
  intro hshown
  by_contra hno
  push_neg at hno
  have := (hmain fun a ha b hb => hno a ha b hb).1
  rw [hshown] at this
  exact absurd this (by simp)

/-- Witness for C10: a single-season episode list renders no selector and
a stray click sequence leaves the selected season at 1. -/
theorem c10_season_selector_witness :
    seasonSelectorShown (some [({ season := some 2 } : Episode)]) = false ∧
    selectedSeasonAfter (some [({ season := some 2 } : Episode)]) [5, 2] = 1 :=
  (c10_season_selector [{ season := some 2 }] [5, 2]).1 (by decide)
